import Mathlib

/-!
Verification of the MarketInsight S&P 500 collection pipeline.

The definitions below are a shallow embedding of the pipeline code:

* `insights/models.py` — `SP500Company`, `CompanyMetrics` (its fields, the
  `unique_together = ['company', 'date']` key, `is_updated_today` and
  `needs_update_today`);
* `insights/management/commands/sp500_worker.py` — the worker command:
  company selection, per-company transactional fetch-and-save, quote /
  financials / sector application, derived price changes, batch pacing,
  and the batch/interrupt control flow;
* `insights/management/commands/collect_sp500_data.py` — the collect
  command's in-loop rate limiter and its single-loop interrupt handling.

Conventions: Python `Decimal` / JSON numbers are embedded as `Rat` (the
arithmetic the claims mention — subtraction, division, `* 100` — is exact
there); calendar dates are day numbers of type `Int`; a `DateTimeField`
used only through `.date()` comparisons (`last_updated`) carries just its
calendar date.  The persistent store is a `List Metrics`; Django's
`get_or_create` / `save` become explicit store transformations, and
`transaction.atomic` is modelled by its documented effect: an exception
inside the block rolls every write of the block back.
-/

/-- Truncation toward zero: Python `int(...)` applied to an exact rational. -/
def truncRat (x : Rat) : Int := if 0 ≤ x then x.floor else x.ceil

/-- `insights.models.SP500Company` — the fields the pipeline reads. -/
structure SP500Company where
  symbol : String
  name : String
  is_active : Bool
deriving Repr, DecidableEq

/-- `insights.models.CompanyMetrics` — one row per `(company, date)`
(`unique_together`).  All price/valuation fields are nullable; `sector` is a
`CharField` defaulting to the empty string; `last_updated` is reduced to its
calendar date, which is all the code ever compares. -/
structure Metrics where
  company : String
  date : Int
  open_price : Option Rat := none
  high_price : Option Rat := none
  low_price : Option Rat := none
  close_price : Option Rat := none
  volume : Option Int := none
  daily_change : Option Rat := none
  daily_change_percent : Option Rat := none
  monthly_change : Option Rat := none
  monthly_change_percent : Option Rat := none
  yearly_change : Option Rat := none
  yearly_change_percent : Option Rat := none
  sector : String := ""
  market_cap : Option Int := none
  pe_ratio : Option Rat := none
  price_to_book : Option Rat := none
  dividend_yield : Option Rat := none
  ma_20 : Option Rat := none
  ma_50 : Option Rat := none
  ma_100 : Option Rat := none
  ma_200 : Option Rat := none
  last_updated : Int := 0
deriving Repr, DecidableEq

/-- Number of rows in the store for one `(company, date)` key — the quantity
the `unique_together` constraint bounds by 1. -/
def countKey (store : List Metrics) (sym : String) (d : Int) : Nat :=
  store.countP (fun m => m.company == sym && m.date == d)

/-- The database's `unique_together = ['company', 'date']` invariant: at most
one row per key. -/
def UniqueKey (store : List Metrics) : Prop :=
  ∀ sym d, countKey store sym d ≤ 1

/-- The row the store holds for a key, if any (Django row lookup by the
unique key). -/
def lookupKey (store : List Metrics) (sym : String) (d : Int) : Option Metrics :=
  store.find? (fun m => m.company == sym && m.date == d)

/-- All rows of the store for one `(company, date)` key. -/
def filterKey (store : List Metrics) (sym : String) (d : Int) : List Metrics :=
  store.filter (fun m => m.company == sym && m.date == d)

/-!  ### RateLimiter (collect_sp500_data.py, lines 83–91)

Inside the company loop: `if i > 0 and i % batch_size == 0`, compute
`elapsed = time.time() - start_time`; if `elapsed < 60` sleep for
`60 - elapsed`; in either case `start_time = time.time()` afterwards (so the
new window start is the clock after the sleep).  `rate_limit_step` returns
`(sleep duration, new window start)` given the loop index, the current
window start and the clock `now` at the check; the clock is taken to advance
by exactly the slept duration.  It is a pure function of these inputs: the
sleep duration is deterministic in the elapsed time, with no jitter. -/

def rate_limit_step (batchSize i : Nat) (windowStart now : Rat) : Rat × Rat :=
  if 0 < i ∧ i % batchSize = 0 then
    let elapsed := now - windowStart
    if elapsed < 60 then (60 - elapsed, now + (60 - elapsed)) else (0, now)
  else (0, windowStart)

/-!  ### Batch pacing (sp500_worker.py, lines 99–106)

After each batch: `min_batch_time = batch_size * delay + 2`; if the batch's
elapsed time is below that, sleep for the shortfall.  `batch_pause` is the
sleep duration. -/

def batch_pause (batchSize : Nat) (delay elapsed : Rat) : Rat :=
  let minBatchTime := batchSize * delay + 2
  if elapsed < minBatchTime then minBatchTime - elapsed else 0

/-- C2: the rate limiter throttles exactly at every `batchSize`-th call (zero
based index `i` with `0 < i` and `i % batchSize = 0`): at other indices it
neither sleeps nor moves the window start; at throttle points with elapsed
time `now - windowStart < 60` it sleeps exactly `60 - elapsed` and the window
start becomes the clock after the sleep; with elapsed `≥ 60` it does not
sleep and still resets the window start to `now`.  Being a function of its
inputs, the sleep is deterministic in the elapsed time. -/
theorem rate_limiter_policy (batchSize i : Nat) (windowStart now : Rat)
    (_hB : 0 < batchSize) :
    (¬(0 < i ∧ i % batchSize = 0) →
      rate_limit_step batchSize i windowStart now = (0, windowStart)) ∧
    ((0 < i ∧ i % batchSize = 0) → now - windowStart < 60 →
      rate_limit_step batchSize i windowStart now
        = (60 - (now - windowStart), now + (60 - (now - windowStart)))) ∧
    ((0 < i ∧ i % batchSize = 0) → 60 ≤ now - windowStart →
      rate_limit_step batchSize i windowStart now = (0, now)) := by
  refine ⟨fun h => ?_, fun h he => ?_, fun h he => ?_⟩ <;>
    simp only [rate_limit_step, if_pos, if_neg, h]
  · simp [h]
  · simp [he]
  · simp [not_lt.mpr he]

/-- Witness for `rate_limiter_policy` at `batchSize = 60`, `i = 120`,
`windowStart = 0`, `now = 45`. -/
theorem rate_limiter_policy_witness :
    (¬(0 < 120 ∧ 120 % 60 = 0) →
      rate_limit_step 60 120 0 45 = (0, 0)) ∧
    ((0 < 120 ∧ 120 % 60 = 0) → (45 : Rat) - 0 < 60 →
      rate_limit_step 60 120 0 45
        = (60 - ((45 : Rat) - 0), 45 + (60 - ((45 : Rat) - 0)))) ∧
    ((0 < 120 ∧ 120 % 60 = 0) → (60 : Rat) ≤ 45 - 0 →
      rate_limit_step 60 120 0 45 = (0, 45)) :=
  rate_limiter_policy 60 120 0 45 (by decide)

/-- C3: with configured batch size `B`, per-call delay `D` and the fixed
2-second buffer, a batch's elapsed time plus the enforced pause is at least
`B * D + 2`, and when the batch finished early the pause is exactly the
shortfall `B * D + 2 - elapsed`. -/
theorem batch_time_floor (batchSize : Nat) (delay elapsed : Rat) :
    (batchSize : Rat) * delay + 2 ≤ elapsed + batch_pause batchSize delay elapsed ∧
    (elapsed < (batchSize : Rat) * delay + 2 →
      batch_pause batchSize delay elapsed = (batchSize : Rat) * delay + 2 - elapsed) := by
  simp only [batch_pause]
  constructor
  · split_ifs with h
    · linarith
    · linarith [not_lt.mp h]
  · intro h
    simp [h]

/-- Witness for `batch_time_floor` at `B = 10`, `D = 1`, `elapsed = 5`. -/
theorem batch_time_floor_witness :
    ((10 : Nat) : Rat) * 1 + 2 ≤ 5 + batch_pause 10 1 5 ∧
    ((5 : Rat) < ((10 : Nat) : Rat) * 1 + 2 →
      batch_pause 10 1 5 = ((10 : Nat) : Rat) * 1 + 2 - 5) :=
  batch_time_floor 10 1 5

/-!  ### MetricsFetcher (sp500_worker.py, lines 171–250)

Each remote fetch returns `none` on failure (the fetch helpers catch every
exception and return `None`), and a payload structure on success.  A payload
field the response omits is `none`; a field the response carries (possibly
with value `0`) is `some v`. -/

/-- The quote endpoint's payload: keys `c`, `h`, `l`, `o`, `pc`. -/
structure QuoteData where
  c : Option Rat := none
  h : Option Rat := none
  l : Option Rat := none
  o : Option Rat := none
  pc : Option Rat := none
deriving Repr, DecidableEq

/-- The basic-financials payload's `metric` map, restricted to the keys the
worker reads. -/
structure Financials where
  marketCapitalization : Option Rat := none
  peBasicExclExtraTTM : Option Rat := none
  pbAnnual : Option Rat := none
  dividendYieldIndicatedAnnual : Option Rat := none
deriving Repr, DecidableEq

/-- The first four `if key in quote_data` assignments of
`Command.update_price_data` (lines 219–226): copy `c`/`h`/`l`/`o` into the
record when present. -/
def apply_quote_fields (m : Metrics) (q : QuoteData) : Metrics :=
  let m := match q.c with
    | some v => { m with close_price := some v }
    | none => m
  let m := match q.h with
    | some v => { m with high_price := some v }
    | none => m
  let m := match q.l with
    | some v => { m with low_price := some v }
    | none => m
  match q.o with
  | some v => { m with open_price := some v }
  | none => m

/-- `Command.update_price_data` (sp500_worker.py, lines 217–232): copy the
quote's price fields, then, when the response carries `pc` and
`metrics.close_price` is truthy (non-null and nonzero — Python truthiness of
`Decimal`), set `daily_change = close_price - previous_close` and, when
`previous_close != 0`, `daily_change_percent = daily_change / previous_close
* 100`. -/
def update_price_data (m : Metrics) (q : QuoteData) : Metrics :=
  let m := apply_quote_fields m q
  match q.pc with
  | some previous_close =>
    match m.close_price with
    | some cp =>
      if cp ≠ 0 then
        let m := { m with daily_change := some (cp - previous_close) }
        if previous_close ≠ 0 then
          let pct := (cp - previous_close) / previous_close * 100
          { m with daily_change_percent := some pct }
        else m
      else m
    | none => m
  | none => m

/-- `Command.update_financial_metrics` (sp500_worker.py, lines 234–250):
each metric is copied only when the key is present and its value truthy
(non-null and nonzero); market capitalization is scaled from millions with
`int(value * 1_000_000)` (truncation toward zero). -/
def update_financial_metrics (m : Metrics) (f : Financials) : Metrics :=
  let m := match f.marketCapitalization with
    | some v => if v ≠ 0 then { m with market_cap := some (truncRat (v * 1000000)) } else m
    | none => m
  let m := match f.peBasicExclExtraTTM with
    | some v => if v ≠ 0 then { m with pe_ratio := some v } else m
    | none => m
  let m := match f.pbAnnual with
    | some v => if v ≠ 0 then { m with price_to_book := some v } else m
    | none => m
  match f.dividendYieldIndicatedAnnual with
  | some v => if v ≠ 0 then { m with dividend_yield := some v } else m
  | none => m

/-!  ### DerivedMetricsCalculator (sp500_worker.py, lines 252–285) -/

/-- `order_by('-date').first()` on a filtered query: the row with the
greatest `date` among those in the list, `none` on an empty result. -/
def firstByDateDesc (l : List Metrics) : Option Metrics :=
  match l with
  | [] => none
  | m :: ms => some (ms.foldl (fun acc x => if acc.date < x.date then x else acc) m)

/-- The lookback query of `Command.calculate_price_changes`:
`company.metrics.filter(date__lte=cutoff, close_price__isnull=False)
.order_by('-date').first()` — the most recent row of the company at or
before the cutoff whose close is non-null. -/
def findPriorClose (store : List Metrics) (sym : String) (cutoff : Int) : Option Metrics :=
  firstByDateDesc (store.filter fun r =>
    r.company == sym && decide (r.date ≤ cutoff) && r.close_price.isSome)

/-- One lookback arm of `Command.calculate_price_changes`: given today's
close `cp` and the looked-up row, produce the `(change, changePercent)`
updates, or `none` for a field left untouched.  Mirrors
`if row and row.close_price:` (set the change) and the inner
`if row.close_price != 0:` (set the percent). -/
def change_from_prior (cp : Rat) (found : Option Metrics) : Option Rat × Option Rat :=
  match found with
  | some r =>
    match r.close_price with
    | some prior =>
      if prior ≠ 0 then
        (some (cp - prior), if prior ≠ 0 then some ((cp - prior) / prior * 100) else none)
      else (none, none)
    | none => (none, none)
  | none => (none, none)

/-- `Command.calculate_price_changes` (sp500_worker.py, lines 252–285): when
today's close is absent or zero (`if not metrics.close_price: return`) the
record is returned unchanged; otherwise the 30-day and 365-day lookbacks
fill the monthly and yearly change fields. -/
def calculate_price_changes (m : Metrics) (c : SP500Company)
    (store : List Metrics) (today : Int) : Metrics :=
  match m.close_price with
  | none => m
  | some cp =>
    if cp = 0 then m
    else
      let monthly := change_from_prior cp (findPriorClose store c.symbol (today - 30))
      let m := match monthly.1 with
        | some v => { m with monthly_change := some v }
        | none => m
      let m := match monthly.2 with
        | some v => { m with monthly_change_percent := some v }
        | none => m
      let yearly := change_from_prior cp (findPriorClose store c.symbol (today - 365))
      let m := match yearly.1 with
        | some v => { m with yearly_change := some v }
        | none => m
      match yearly.2 with
      | some v => { m with yearly_change_percent := some v }
      | none => m

/-!  ### UpdateGate (models.py, lines 162–177) -/

/-- `.latest('last_updated')` on a list of rows: the row with the greatest
`last_updated`, `none` when the list is empty (`DoesNotExist`). -/
def latestByUpdated (l : List Metrics) : Option Metrics :=
  match l with
  | [] => none
  | m :: ms => some (ms.foldl (fun acc x => if acc.last_updated < x.last_updated then x else acc) m)

/-- `CompanyMetrics.needs_update_today`: look up today's row for the symbol
(latest by `last_updated`); `true` when none exists, otherwise the negation
of `is_updated_today` (`last_updated.date() == date.today()`). -/
def needs_update_today (store : List Metrics) (sym : String) (today : Int) : Bool :=
  match latestByUpdated (store.filter fun m => m.company == sym && m.date == today) with
  | none => true
  | some m => !(m.last_updated == today)

/-!  ### Selection and persistence (sp500_worker.py) -/

/-- `Command.get_companies_to_update` (lines 114–132): active companies
ordered by symbol; without `--force`, keep those for which
`needs_update_today` holds; `--max-companies` (when given and nonzero —
Python truthiness of `if max_companies:`) truncates the list. -/
def get_companies_to_update (store : List Metrics) (companies : List SP500Company)
    (force : Bool) (maxCompanies : Option Nat) (today : Int) : List SP500Company :=
  let active := List.mergeSort (companies.filter (·.is_active)) (fun a b => a.symbol ≤ b.symbol)
  let sel := if force then active
    else active.filter (fun c => needs_update_today store c.symbol today)
  match maxCompanies with
  | some k => if k ≠ 0 then sel.take k else sel
  | none => sel

/-- `CompanyMetrics.objects.get_or_create(company=..., date=today)`: the
existing row, or a freshly inserted empty shell for the key.  Returns the
row, the `created` flag and the store after the call. -/
def get_or_create (store : List Metrics) (sym : String) (today : Int) :
    Metrics × Bool × List Metrics :=
  match lookupKey store sym today with
  | some m => (m, false, store)
  | none =>
    let shell : Metrics := { company := sym, date := today, last_updated := today }
    (shell, true, store ++ [shell])

/-- `metrics.save()`: write the in-memory row back over the store's row with
the same `(company, date)` key; `auto_now` stamps `last_updated` with the
current date. -/
def saveMetrics (store : List Metrics) (m : Metrics) (today : Int) : List Metrics :=
  store.map (fun r =>
    if r.company == m.company && r.date == m.date then { m with last_updated := today } else r)

/-- The per-resource application steps of `Command.fetch_and_save_metrics`
(sp500_worker.py, lines 146–159): apply the sector result when truthy
(`if sector:` — the empty string is skipped), the quote result when the
fetch succeeded, and the financials result when that fetch succeeded.  Each
is independently applied; a `none` (failed fetch) leaves its fields alone. -/
def apply_results (m : Metrics) (sectorRes : Option String)
    (quoteRes : Option QuoteData) (finRes : Option Financials) : Metrics :=
  let m := match sectorRes with
    | some s => if s ≠ "" then { m with sector := s } else m
    | none => m
  let m := match quoteRes with
    | some q => update_price_data m q
    | none => m
  match finRes with
  | some f => update_financial_metrics m f
  | none => m

/-- The body of the `transaction.atomic()` block of
`Command.fetch_and_save_metrics` (sp500_worker.py, lines 137–164): get or
create today's row, apply the sector / quote / financials results that
succeeded, derive the price changes, and save. -/
def fetch_body (store : List Metrics) (c : SP500Company) (sectorRes : Option String)
    (quoteRes : Option QuoteData) (finRes : Option Financials) (today : Int) :
    List Metrics :=
  let gc := get_or_create store c.symbol today
  let store1 := gc.2.2
  let m := calculate_price_changes (apply_results gc.1 sectorRes quoteRes finRes) c store1 today
  saveMetrics store1 m today

/-- An uncaught exception inside the company's atomic block (any point of
the body: during get-or-create, a fetch, the derivation or the save). -/
inductive FaultPoint where
  | duringFetch : FaultPoint
  | duringSave : FaultPoint
deriving Repr, DecidableEq

/-- `Command.fetch_and_save_metrics` (sp500_worker.py, lines 134–169): the
body runs inside `transaction.atomic()`; an exception anywhere in the block
rolls back every write of the block (the store is as before the call) and
the method returns `False`; otherwise the body's writes commit and it
returns `True`. -/
def fetch_and_save_metrics (store : List Metrics) (c : SP500Company)
    (sectorRes : Option String) (quoteRes : Option QuoteData) (finRes : Option Financials)
    (today : Int) (fault : Option FaultPoint) : Bool × List Metrics :=
  match fault with
  | some _ => (false, store)
  | none => (true, fetch_body store c sectorRes quoteRes finRes today)

/-- The per-run environment: what each remote fetch would return for each
company, and whether the company's processing raises. -/
structure FetchEnv where
  sectorOf : SP500Company → Option String
  quoteOf : SP500Company → Option QuoteData
  finOf : SP500Company → Option Financials
  faultOf : SP500Company → Option FaultPoint

/-- Processing of one company inside the worker's loop: the store after
`fetch_and_save_metrics`. -/
def processCompany (env : FetchEnv) (today : Int) (store : List Metrics)
    (c : SP500Company) : List Metrics :=
  (fetch_and_save_metrics store c (env.sectorOf c) (env.quoteOf c) (env.finOf c)
    today (env.faultOf c)).2

/-- The worker's company loop over a selected list: each company's update
commits (or rolls back) independently, in order. -/
def runCompanies (env : FetchEnv) (today : Int) (store : List Metrics)
    (l : List SP500Company) : List Metrics :=
  l.foldl (processCompany env today) store

/-- One worker run (`Command.handle`): select the companies, then process
each in order.  Batching only paces the loop; it does not change which
stores are written. -/
def runPipeline (env : FetchEnv) (today : Int) (store : List Metrics)
    (companies : List SP500Company) (force : Bool) (maxCompanies : Option Nat) :
    List Metrics :=
  runCompanies env today store (get_companies_to_update store companies force maxCompanies today)

/-!  ### Frame lemmas for the field-update functions -/

theorem apply_quote_fields_frame (m : Metrics) (q : QuoteData) :
    (apply_quote_fields m q).company = m.company ∧
    (apply_quote_fields m q).date = m.date ∧
    (apply_quote_fields m q).sector = m.sector ∧
    (apply_quote_fields m q).market_cap = m.market_cap ∧
    (apply_quote_fields m q).pe_ratio = m.pe_ratio ∧
    (apply_quote_fields m q).price_to_book = m.price_to_book ∧
    (apply_quote_fields m q).dividend_yield = m.dividend_yield ∧
    (apply_quote_fields m q).daily_change = m.daily_change ∧
    (apply_quote_fields m q).daily_change_percent = m.daily_change_percent ∧
    (apply_quote_fields m q).monthly_change = m.monthly_change ∧
    (apply_quote_fields m q).monthly_change_percent = m.monthly_change_percent ∧
    (apply_quote_fields m q).yearly_change = m.yearly_change ∧
    (apply_quote_fields m q).yearly_change_percent = m.yearly_change_percent := by
  simp only [apply_quote_fields]
  repeat' split
  all_goals simp_all

theorem apply_quote_fields_prices (m : Metrics) (q : QuoteData) :
    (apply_quote_fields m q).close_price = q.c.or m.close_price ∧
    (apply_quote_fields m q).high_price = q.h.or m.high_price ∧
    (apply_quote_fields m q).low_price = q.l.or m.low_price ∧
    (apply_quote_fields m q).open_price = q.o.or m.open_price := by
  simp only [apply_quote_fields]
  repeat' split
  all_goals simp_all

theorem update_price_data_frame (m : Metrics) (q : QuoteData) :
    (update_price_data m q).company = m.company ∧
    (update_price_data m q).date = m.date ∧
    (update_price_data m q).sector = m.sector ∧
    (update_price_data m q).market_cap = m.market_cap ∧
    (update_price_data m q).pe_ratio = m.pe_ratio ∧
    (update_price_data m q).price_to_book = m.price_to_book ∧
    (update_price_data m q).dividend_yield = m.dividend_yield ∧
    (update_price_data m q).monthly_change = m.monthly_change ∧
    (update_price_data m q).monthly_change_percent = m.monthly_change_percent ∧
    (update_price_data m q).yearly_change = m.yearly_change ∧
    (update_price_data m q).yearly_change_percent = m.yearly_change_percent ∧
    (update_price_data m q).close_price = q.c.or m.close_price ∧
    (update_price_data m q).high_price = q.h.or m.high_price ∧
    (update_price_data m q).low_price = q.l.or m.low_price ∧
    (update_price_data m q).open_price = q.o.or m.open_price := by
  have hf := apply_quote_fields_frame m q
  have hp := apply_quote_fields_prices m q
  simp only [update_price_data]
  repeat' split
  all_goals simp_all

theorem update_financial_metrics_frame (m : Metrics) (f : Financials) :
    (update_financial_metrics m f).company = m.company ∧
    (update_financial_metrics m f).date = m.date ∧
    (update_financial_metrics m f).sector = m.sector ∧
    (update_financial_metrics m f).close_price = m.close_price ∧
    (update_financial_metrics m f).high_price = m.high_price ∧
    (update_financial_metrics m f).low_price = m.low_price ∧
    (update_financial_metrics m f).open_price = m.open_price ∧
    (update_financial_metrics m f).daily_change = m.daily_change ∧
    (update_financial_metrics m f).daily_change_percent = m.daily_change_percent ∧
    (update_financial_metrics m f).monthly_change = m.monthly_change ∧
    (update_financial_metrics m f).monthly_change_percent = m.monthly_change_percent ∧
    (update_financial_metrics m f).yearly_change = m.yearly_change ∧
    (update_financial_metrics m f).yearly_change_percent = m.yearly_change_percent := by
  simp only [update_financial_metrics]
  repeat' split
  all_goals simp_all

theorem calculate_price_changes_frame (m : Metrics) (c : SP500Company)
    (store : List Metrics) (today : Int) :
    (calculate_price_changes m c store today).company = m.company ∧
    (calculate_price_changes m c store today).date = m.date ∧
    (calculate_price_changes m c store today).sector = m.sector ∧
    (calculate_price_changes m c store today).close_price = m.close_price ∧
    (calculate_price_changes m c store today).high_price = m.high_price ∧
    (calculate_price_changes m c store today).low_price = m.low_price ∧
    (calculate_price_changes m c store today).open_price = m.open_price ∧
    (calculate_price_changes m c store today).daily_change = m.daily_change ∧
    (calculate_price_changes m c store today).daily_change_percent = m.daily_change_percent ∧
    (calculate_price_changes m c store today).market_cap = m.market_cap ∧
    (calculate_price_changes m c store today).pe_ratio = m.pe_ratio ∧
    (calculate_price_changes m c store today).price_to_book = m.price_to_book ∧
    (calculate_price_changes m c store today).dividend_yield = m.dividend_yield := by
  simp only [calculate_price_changes]
  repeat' split
  all_goals simp_all

theorem apply_results_key (m : Metrics) (sectorRes : Option String)
    (quoteRes : Option QuoteData) (finRes : Option Financials) :
    (apply_results m sectorRes quoteRes finRes).company = m.company ∧
    (apply_results m sectorRes quoteRes finRes).date = m.date := by
  have hu1 : ∀ (x : Metrics) (q : QuoteData), (update_price_data x q).company = x.company :=
    fun x q => (update_price_data_frame x q).1
  have hu2 : ∀ (x : Metrics) (q : QuoteData), (update_price_data x q).date = x.date :=
    fun x q => (update_price_data_frame x q).2.1
  have hf1 : ∀ (x : Metrics) (g : Financials), (update_financial_metrics x g).company = x.company :=
    fun x g => (update_financial_metrics_frame x g).1
  have hf2 : ∀ (x : Metrics) (g : Financials), (update_financial_metrics x g).date = x.date :=
    fun x g => (update_financial_metrics_frame x g).2.1
  simp only [apply_results]
  repeat' split
  all_goals constructor <;> simp_all

/-!  ### Store-level lemmas: counting, lookup, save, get-or-create -/

theorem countKey_append (s t : List Metrics) (sym : String) (d : Int) :
    countKey (s ++ t) sym d = countKey s sym d + countKey t sym d :=
  List.countP_append _ _ _

theorem countKey_eq_zero_iff (store : List Metrics) (sym : String) (d : Int) :
    countKey store sym d = 0 ↔ ∀ m ∈ store, ¬(m.company = sym ∧ m.date = d) := by
  simp [countKey, List.countP_eq_zero]

theorem lookupKey_none_iff (store : List Metrics) (sym : String) (d : Int) :
    lookupKey store sym d = none ↔ ∀ m ∈ store, ¬(m.company = sym ∧ m.date = d) := by
  simp [lookupKey, List.find?_eq_none]

theorem lookupKey_some_facts (store : List Metrics) (sym : String) (d : Int) (m0 : Metrics)
    (h : lookupKey store sym d = some m0) :
    m0 ∈ store ∧ m0.company = sym ∧ m0.date = d ∧ 1 ≤ countKey store sym d := by
  have hmem := List.mem_of_find?_eq_some h
  have hp := List.find?_some h
  simp only [Bool.and_eq_true, beq_iff_eq] at hp
  refine ⟨hmem, hp.1, hp.2, ?_⟩
  have : 0 < countKey store sym d := by
    rw [countKey, List.countP_pos_iff]
    exact ⟨m0, hmem, by simp [hp.1, hp.2]⟩
  omega

theorem countKey_saveMetrics (store : List Metrics) (m : Metrics) (today : Int)
    (sym : String) (d : Int) :
    countKey (saveMetrics store m today) sym d = countKey store sym d := by
  induction store with
  | nil => rfl
  | cons a t ih =>
    simp only [saveMetrics, List.map_cons, countKey, List.countP_cons] at ih ⊢
    rw [ih]
    congr 1
    by_cases hk : (a.company == m.company && a.date == m.date) = true
    · have h1 : a.company = m.company ∧ a.date = m.date := by
        simpa [Bool.and_eq_true] using hk
      simp [hk, h1.1, h1.2]
    · simp [hk]

theorem filterKey_saveMetrics (store : List Metrics) (m : Metrics) (today : Int)
    (sym : String) (d : Int) (h : ¬(sym = m.company ∧ d = m.date)) :
    filterKey (saveMetrics store m today) sym d = filterKey store sym d := by
  induction store with
  | nil => rfl
  | cons a t ih =>
    simp only [saveMetrics, List.map_cons, filterKey, List.filter_cons] at ih ⊢
    by_cases hk : (a.company == m.company && a.date == m.date) = true
    · have h1 : a.company = m.company ∧ a.date = m.date := by
        simpa [Bool.and_eq_true] using hk
      have hpa : ¬((a.company == sym && a.date == d) = true) := by
        simp only [Bool.and_eq_true, beq_iff_eq, not_and]
        intro h2 h3
        exact h ⟨by rw [← h2, h1.1], by rw [← h3, h1.2]⟩
      have hpf : ¬((m.company == sym && m.date == d) = true) := by
        simp only [Bool.and_eq_true, beq_iff_eq, not_and]
        intro h2 h3
        exact h ⟨h2.symm, h3.symm⟩
      rw [if_pos hk, if_neg (by simpa using hpf), if_neg hpa]
      exact ih
    · rw [if_neg hk]
      by_cases hpa : (a.company == sym && a.date == d) = true
      · rw [if_pos hpa, if_pos hpa, ih]
      · rw [if_neg hpa, if_neg hpa]
        exact ih

theorem find?_map_pred (f : Metrics → Metrics) (p : Metrics → Bool) (l : List Metrics)
    (h : ∀ x, p (f x) = p x) :
    (l.map f).find? p = (l.find? p).map f := by
  induction l with
  | nil => rfl
  | cons a t ih =>
    rw [List.map_cons]
    by_cases hpa : p a = true
    · rw [List.find?_cons_of_pos (List.map f t) (by rw [h]; exact hpa),
        List.find?_cons_of_pos t hpa]
      rfl
    · rw [List.find?_cons_of_neg (List.map f t) (by rw [h]; exact hpa),
        List.find?_cons_of_neg t hpa, ih]

theorem lookupKey_saveMetrics_self (store : List Metrics) (m : Metrics) (today : Int) :
    lookupKey (saveMetrics store m today) m.company m.date
      = (lookupKey store m.company m.date).map (fun _ => { m with last_updated := today }) := by
  have hpres : ∀ x : Metrics,
      ((if x.company == m.company && x.date == m.date then
          { m with last_updated := today } else x).company == m.company
        && (if x.company == m.company && x.date == m.date then
          { m with last_updated := today } else x).date == m.date)
        = (x.company == m.company && x.date == m.date) := by
    intro x
    by_cases hk : (x.company == m.company && x.date == m.date) = true
    · rw [if_pos hk]
      simp [hk]
    · rw [if_neg hk]
  rw [lookupKey, lookupKey, saveMetrics,
    find?_map_pred _ (fun x => x.company == m.company && x.date == m.date) store hpres]
  cases hf : store.find? (fun x => x.company == m.company && x.date == m.date) with
  | none => rfl
  | some r =>
    have hr := List.find?_some hf
    show some (if (r.company == m.company && r.date == m.date) = true then _ else r) = _
    rw [if_pos hr]
    rfl

theorem filterKey_append (s t : List Metrics) (sym : String) (d : Int) :
    filterKey (s ++ t) sym d = filterKey s sym d ++ filterKey t sym d :=
  List.filter_append _ _

/-- The row built inside the atomic block keeps the key it was fetched or
created with. -/
theorem fetch_final_key (m0 : Metrics) (c : SP500Company) (sec : Option String)
    (q : Option QuoteData) (fin : Option Financials) (store1 : List Metrics) (today : Int) :
    (calculate_price_changes (apply_results m0 sec q fin) c store1 today).company = m0.company ∧
    (calculate_price_changes (apply_results m0 sec q fin) c store1 today).date = m0.date := by
  have h1 := calculate_price_changes_frame (apply_results m0 sec q fin) c store1 today
  have h2 := apply_results_key m0 sec q fin
  exact ⟨h1.1.trans h2.1, h1.2.1.trans h2.2⟩

/-- Effect of one committed fetch-and-save body on the row count of each
key: the processed company's `(company, today)` key ends with exactly one
row when it had none (the created shell) and keeps its count otherwise;
every other key's count is untouched. -/
theorem fetch_body_countKey (store : List Metrics) (c : SP500Company) (sec : Option String)
    (q : Option QuoteData) (fin : Option Financials) (today : Int) (sym : String) (d : Int) :
    countKey (fetch_body store c sec q fin today) sym d
      = if sym = c.symbol ∧ d = today then max (countKey store sym d) 1
        else countKey store sym d := by
  cases hlk : lookupKey store c.symbol today with
  | some m0 =>
    simp only [fetch_body, get_or_create, hlk]
    rw [countKey_saveMetrics]
    have h1 := lookupKey_some_facts store c.symbol today m0 hlk
    split_ifs with h
    · obtain ⟨hs, hd⟩ := h
      subst hs; subst hd
      exact (Nat.max_eq_left h1.2.2.2).symm
    · rfl
  | none =>
    simp only [fetch_body, get_or_create, hlk]
    rw [countKey_saveMetrics, countKey_append]
    have h0 : countKey store c.symbol today = 0 := by
      rw [countKey_eq_zero_iff]
      exact (lookupKey_none_iff store c.symbol today).mp hlk
    split_ifs with h
    · obtain ⟨hs, hd⟩ := h
      subst hs; subst hd
      rw [h0]
      simp [countKey, List.countP_cons]
    · have hp : ¬(c.symbol = sym ∧ today = d) := fun hc => h ⟨hc.1.symm, hc.2.symm⟩
      have hone : countKey [{ company := c.symbol, date := today, last_updated := today }] sym d = 0 := by
        simp only [countKey, List.countP_cons, List.countP_nil]
        simp only [Bool.and_eq_true, beq_iff_eq]
        rw [if_neg]
        intro hc
        exact hp ⟨hc.1, hc.2⟩
      rw [hone]
      omega

/-- Frame over keys: a committed fetch-and-save body leaves the rows of
every other `(company, date)` key exactly as they were. -/
theorem fetch_body_filterKey (store : List Metrics) (c : SP500Company) (sec : Option String)
    (q : Option QuoteData) (fin : Option Financials) (today : Int) (sym : String) (d : Int)
    (h : ¬(sym = c.symbol ∧ d = today)) :
    filterKey (fetch_body store c sec q fin today) sym d = filterKey store sym d := by
  cases hlk : lookupKey store c.symbol today with
  | some m0 =>
    simp only [fetch_body, get_or_create, hlk]
    have h1 := lookupKey_some_facts store c.symbol today m0 hlk
    have hkey := fetch_final_key m0 c sec q fin store today
    rw [filterKey_saveMetrics]
    rw [hkey.1, hkey.2, h1.2.1, h1.2.2.1]
    exact h
  | none =>
    simp only [fetch_body, get_or_create, hlk]
    have hkey := fetch_final_key { company := c.symbol, date := today, last_updated := today }
      c sec q fin (store ++ [{ company := c.symbol, date := today, last_updated := today }]) today
    have hns : ¬(sym = (calculate_price_changes
        (apply_results { company := c.symbol, date := today, last_updated := today } sec q fin) c
        (store ++ [{ company := c.symbol, date := today, last_updated := today }]) today).company ∧
        d = (calculate_price_changes
        (apply_results { company := c.symbol, date := today, last_updated := today } sec q fin) c
        (store ++ [{ company := c.symbol, date := today, last_updated := today }]) today).date) := by
      rw [hkey.1, hkey.2]
      exact h
    rw [filterKey_saveMetrics _ _ _ _ _ hns, filterKey_append]
    have hsh : filterKey [{ company := c.symbol, date := today, last_updated := today }] sym d = [] := by
      simp only [filterKey, List.filter_cons, List.filter_nil]
      rw [if_neg (by
        simp only [Bool.and_eq_true, beq_iff_eq]
        intro hc
        exact h ⟨hc.1.symm, hc.2.symm⟩)]
    rw [hsh, List.append_nil]

/-- After a committed fetch-and-save body, the processed company's key maps
to the fully merged row: sector/quote/financials applied to the fetched or
created row, derived changes computed, and `last_updated` stamped today. -/
theorem fetch_body_lookup_self (store : List Metrics) (c : SP500Company) (sec : Option String)
    (q : Option QuoteData) (fin : Option Financials) (today : Int) :
    lookupKey (fetch_body store c sec q fin today) c.symbol today
      = some { calculate_price_changes
                (apply_results (get_or_create store c.symbol today).1 sec q fin) c
                (get_or_create store c.symbol today).2.2 today with
              last_updated := today } := by
  cases hlk : lookupKey store c.symbol today with
  | some m0 =>
    simp only [fetch_body, get_or_create, hlk]
    have h1 := lookupKey_some_facts store c.symbol today m0 hlk
    have hkey := fetch_final_key m0 c sec q fin store today
    have e1 : (calculate_price_changes (apply_results m0 sec q fin) c store today).company
        = c.symbol := hkey.1.trans h1.2.1
    have e2 : (calculate_price_changes (apply_results m0 sec q fin) c store today).date
        = today := hkey.2.trans h1.2.2.1
    have hsave := lookupKey_saveMetrics_self store
      (calculate_price_changes (apply_results m0 sec q fin) c store today) today
    rw [e1, e2] at hsave
    rw [hsave, hlk, e1, e2]
    rfl
  | none =>
    simp only [fetch_body, get_or_create, hlk]
    have hkey := fetch_final_key { company := c.symbol, date := today, last_updated := today }
      c sec q fin (store ++ [{ company := c.symbol, date := today, last_updated := today }]) today
    have e1 : (calculate_price_changes
        (apply_results { company := c.symbol, date := today, last_updated := today } sec q fin) c
        (store ++ [{ company := c.symbol, date := today, last_updated := today }]) today).company
        = c.symbol := hkey.1
    have e2 : (calculate_price_changes
        (apply_results { company := c.symbol, date := today, last_updated := today } sec q fin) c
        (store ++ [{ company := c.symbol, date := today, last_updated := today }]) today).date
        = today := hkey.2
    have hsave := lookupKey_saveMetrics_self
      (store ++ [{ company := c.symbol, date := today, last_updated := today }])
      (calculate_price_changes
        (apply_results { company := c.symbol, date := today, last_updated := today } sec q fin) c
        (store ++ [{ company := c.symbol, date := today, last_updated := today }]) today) today
    rw [e1, e2] at hsave
    rw [hsave]
    have happ : lookupKey (store ++ [{ company := c.symbol, date := today, last_updated := today }])
        c.symbol today = some { company := c.symbol, date := today, last_updated := today } := by
      rw [lookupKey, List.find?_append]
      rw [lookupKey] at hlk
      rw [hlk]
      simp
    rw [happ, e1, e2]
    rfl

/-!  ### Run-level lemmas -/

theorem processCompany_count_le (env : FetchEnv) (today : Int) (store : List Metrics)
    (c : SP500Company) (sym : String) (d : Int) (h : countKey store sym d ≤ 1) :
    countKey (processCompany env today store c) sym d ≤ 1 := by
  unfold processCompany fetch_and_save_metrics
  cases env.faultOf c with
  | some fp => exact h
  | none =>
    simp only
    rw [fetch_body_countKey]
    split_ifs
    · omega
    · exact h

theorem processCompany_count_one (env : FetchEnv) (today : Int) (store : List Metrics)
    (c : SP500Company) (sym : String) (d : Int) (h : countKey store sym d = 1) :
    countKey (processCompany env today store c) sym d = 1 := by
  unfold processCompany fetch_and_save_metrics
  cases env.faultOf c with
  | some fp => exact h
  | none =>
    simp only
    rw [fetch_body_countKey]
    split_ifs
    · omega
    · exact h

theorem processCompany_creates (env : FetchEnv) (today : Int) (store : List Metrics)
    (c : SP500Company) (hf : env.faultOf c = none) (h : countKey store c.symbol today ≤ 1) :
    countKey (processCompany env today store c) c.symbol today = 1 := by
  unfold processCompany fetch_and_save_metrics
  rw [hf]
  simp only
  rw [fetch_body_countKey]
  rw [if_pos ⟨rfl, rfl⟩]
  omega

theorem UniqueKey_processCompany (env : FetchEnv) (today : Int) (store : List Metrics)
    (c : SP500Company) (hU : UniqueKey store) :
    UniqueKey (processCompany env today store c) :=
  fun sym d => processCompany_count_le env today store c sym d (hU sym d)

theorem UniqueKey_runCompanies (env : FetchEnv) (today : Int) (l : List SP500Company) :
    ∀ store : List Metrics, UniqueKey store → UniqueKey (runCompanies env today store l) := by
  induction l with
  | nil => exact fun store h => h
  | cons a t ih =>
    intro store h
    exact ih _ (UniqueKey_processCompany env today store a h)

theorem runCompanies_count_one (env : FetchEnv) (today : Int) (l : List SP500Company)
    (sym : String) (d : Int) :
    ∀ store : List Metrics, countKey store sym d = 1 →
      countKey (runCompanies env today store l) sym d = 1 := by
  induction l with
  | nil => exact fun store h => h
  | cons a t ih =>
    intro store h
    exact ih _ (processCompany_count_one env today store a sym d h)

theorem runCompanies_mem_one (env : FetchEnv) (today : Int) (l : List SP500Company)
    (c : SP500Company) (hf : env.faultOf c = none) :
    ∀ store : List Metrics, UniqueKey store → c ∈ l →
      countKey (runCompanies env today store l) c.symbol today = 1 := by
  induction l with
  | nil =>
    intro store _ hc
    cases hc
  | cons a t ih =>
    intro store hU hc
    rcases List.mem_cons.mp hc with rfl | hc
    · have h1 : countKey (processCompany env today store c) c.symbol today = 1 :=
        processCompany_creates env today store c hf (hU c.symbol today)
      exact runCompanies_count_one env today t c.symbol today _ h1
    · exact ih _ (UniqueKey_processCompany env today store a hU) hc

/-- With `--force` and no `--max-companies`, the selection is exactly the
active companies. -/
theorem mem_selection_force (store : List Metrics) (companies : List SP500Company)
    (today : Int) (c : SP500Company) :
    c ∈ get_companies_to_update store companies true none today ↔
      c ∈ companies ∧ c.is_active = true := by
  unfold get_companies_to_update
  simp only [if_true]
  rw [(List.mergeSort_perm (companies.filter (·.is_active)) _).mem_iff]
  simp [List.mem_filter]

/-- C1: the `unique_together = ['company', 'date']` invariant is preserved by
any sequence of pipeline runs (each with its own fetch results, date, force
flag and company cap), and two consecutive same-day runs — the first
processing active company `c` without a fault, the second with
`force = false` — leave exactly one persisted row for `(c.symbol, today)`:
the second run either skips the company or get-or-creates the same row. -/
theorem unique_daily_record (store : List Metrics) (companies : List SP500Company)
    (c : SP500Company) (env env2 : FetchEnv) (today : Int)
    (hU : UniqueKey store) (hc : c ∈ companies) (ha : c.is_active = true)
    (hf : env.faultOf c = none) :
    (∀ runs : List (FetchEnv × Int × Bool × Option Nat),
      UniqueKey (runs.foldl
        (fun st r => runPipeline r.1 r.2.1 st companies r.2.2.1 r.2.2.2) store)) ∧
    countKey (runPipeline env2 today (runPipeline env today store companies true none)
      companies false none) c.symbol today = 1 := by
  have hrun : ∀ (e : FetchEnv) (t : Int) (f : Bool) (mx : Option Nat) (st : List Metrics),
      UniqueKey st → UniqueKey (runPipeline e t st companies f mx) := by
    intro e t f mx st h
    exact UniqueKey_runCompanies e t _ st h
  constructor
  · intro runs
    have hgen : ∀ (rs : List (FetchEnv × Int × Bool × Option Nat)) (st : List Metrics),
        UniqueKey st → UniqueKey (rs.foldl
          (fun st r => runPipeline r.1 r.2.1 st companies r.2.2.1 r.2.2.2) st) := by
      intro rs
      induction rs with
      | nil => exact fun st h => h
      | cons r t ih =>
        intro st h
        exact ih _ (hrun r.1 r.2.1 r.2.2.1 r.2.2.2 st h)
    exact hgen runs store hU
  · have h1 : countKey (runPipeline env today store companies true none) c.symbol today = 1 := by
      unfold runPipeline
      exact runCompanies_mem_one env today _ c hf store hU
        ((mem_selection_force store companies today c).mpr ⟨hc, ha⟩)
    unfold runPipeline
    exact runCompanies_count_one env2 today _ c.symbol today _ h1

/-- Witness for `unique_daily_record`: empty store, one active company, all
fetches failing, no faults; two runs leave exactly one row for the pair. -/
theorem unique_daily_record_witness :
    (∀ runs : List (FetchEnv × Int × Bool × Option Nat),
      UniqueKey (runs.foldl
        (fun st r => runPipeline r.1 r.2.1 st [⟨"AAPL", "Apple Inc.", true⟩]
          r.2.2.1 r.2.2.2) [])) ∧
    countKey (runPipeline ⟨fun _ => none, fun _ => none, fun _ => none, fun _ => none⟩ 0
      (runPipeline ⟨fun _ => none, fun _ => none, fun _ => none, fun _ => none⟩ 0 []
        [⟨"AAPL", "Apple Inc.", true⟩] true none)
      [⟨"AAPL", "Apple Inc.", true⟩] false none) "AAPL" 0 = 1 :=
  unique_daily_record [] [⟨"AAPL", "Apple Inc.", true⟩] ⟨"AAPL", "Apple Inc.", true⟩
    ⟨fun _ => none, fun _ => none, fun _ => none, fun _ => none⟩
    ⟨fun _ => none, fun _ => none, fun _ => none, fun _ => none⟩ 0
    (fun sym d => by simp [countKey]) (List.mem_singleton.mpr rfl) rfl rfl

/-- C4: under the uniqueness invariant, `needs_update_today(symbol, today)`
is true exactly when no row exists for `(symbol, today)` or the row exists
but its `last_updated` calendar date differs from today; and with the
`--force` override every active company is selected regardless of existing
rows. -/
theorem needs_update_gate (store : List Metrics) (companies : List SP500Company)
    (sym : String) (today : Int) (hU : UniqueKey store) :
    (needs_update_today store sym today = true ↔
      (∀ m ∈ store, ¬(m.company = sym ∧ m.date = today)) ∨
      (∃ m ∈ store, m.company = sym ∧ m.date = today ∧ m.last_updated ≠ today)) ∧
    (∀ c : SP500Company, c ∈ get_companies_to_update store companies true none today ↔
      c ∈ companies ∧ c.is_active = true) := by
  constructor
  · have hlen : (store.filter (fun m => m.company == sym && m.date == today)).length ≤ 1 := by
      rw [← List.countP_eq_length_filter]
      exact hU sym today
    cases hfl : store.filter (fun m => m.company == sym && m.date == today) with
    | nil =>
      refine iff_of_true ?_ (Or.inl ?_)
      · simp [needs_update_today, latestByUpdated, hfl]
      · intro m hm hkey
        have : m ∈ store.filter (fun m => m.company == sym && m.date == today) := by
          rw [List.mem_filter]
          exact ⟨hm, by simp [hkey.1, hkey.2]⟩
        rw [hfl] at this
        cases this
    | cons a t =>
      have ht : t = [] := by
        rw [hfl] at hlen
        simp only [List.length_cons] at hlen
        exact List.eq_nil_of_length_eq_zero (by omega)
      subst ht
      have hamem : a ∈ store.filter (fun m => m.company == sym && m.date == today) := by
        rw [hfl]
        exact List.mem_singleton.mpr rfl
      have ha := List.mem_filter.mp hamem
      have hak : a.company = sym ∧ a.date = today := by
        simpa [Bool.and_eq_true] using ha.2
      have hL : needs_update_today store sym today = true ↔ ¬(a.last_updated = today) := by
        simp [needs_update_today, latestByUpdated, hfl]
      rw [hL]
      constructor
      · intro hne
        exact Or.inr ⟨a, ha.1, hak.1, hak.2, hne⟩
      · intro h
        rcases h with h | ⟨m, hm, h1, h2, h3⟩
        · exact absurd hak (h a ha.1)
        · have : m ∈ store.filter (fun m => m.company == sym && m.date == today) := by
            rw [List.mem_filter]
            exact ⟨hm, by simp [h1, h2]⟩
          rw [hfl] at this
          rw [← List.mem_singleton.mp this]
          exact h3
  · exact fun c => mem_selection_force store companies today c

/-- Witness for `needs_update_gate`: empty store (no row for any pair, so
the gate fires), one active company selected under `--force`. -/
theorem needs_update_gate_witness :
    (needs_update_today [] "AAPL" 0 = true ↔
      (∀ m ∈ ([] : List Metrics), ¬(m.company = "AAPL" ∧ m.date = 0)) ∨
      (∃ m ∈ ([] : List Metrics), m.company = "AAPL" ∧ m.date = 0 ∧ m.last_updated ≠ 0)) ∧
    (∀ c : SP500Company,
      c ∈ get_companies_to_update [] [⟨"AAPL", "Apple Inc.", true⟩] true none 0 ↔
      c ∈ [⟨"AAPL", "Apple Inc.", true⟩] ∧ c.is_active = true) :=
  needs_update_gate [] [⟨"AAPL", "Apple Inc.", true⟩] "AAPL" 0
    (fun sym d => by simp [countKey])

/-- C10: the worker treats a zero close like an absent one: if the record's
close price (after the quote's price fields are copied) is zero, the daily
change block computes neither `daily_change` nor `daily_change_percent` even
when the response carries a previous close, and `calculate_price_changes`
returns immediately, leaving the whole record — in particular all six change
fields — unchanged. -/
theorem zero_close_treated_absent (m m2 : Metrics) (q : QuoteData) (c : SP500Company)
    (store : List Metrics) (today : Int) :
    ((apply_quote_fields m q).close_price = some 0 →
      (update_price_data m q).daily_change = m.daily_change ∧
      (update_price_data m q).daily_change_percent = m.daily_change_percent) ∧
    (m2.close_price = some 0 → calculate_price_changes m2 c store today = m2) := by
  have hframe := apply_quote_fields_frame m q
  constructor
  · intro h
    simp only [update_price_data, h]
    refine ⟨?_, ?_⟩ <;>
      (split <;> first
        | (rw [if_neg (by simp)]
           first
           | exact hframe.2.2.2.2.2.2.2.1
           | exact hframe.2.2.2.2.2.2.2.2.1)
        | exact hframe.2.2.2.2.2.2.2.1
        | exact hframe.2.2.2.2.2.2.2.2.1)
  · intro h
    simp only [calculate_price_changes, h]
    simp

/-- Witness for `zero_close_treated_absent`: a quote reporting a zero close
with previous close 50 leaves both daily fields unset, and a record whose
close is zero passes through the derived computation unchanged. -/
theorem zero_close_treated_absent_witness :
    ((apply_quote_fields { company := "AAPL", date := 0, last_updated := 0 }
        { c := some 0, pc := some 50 }).close_price = some 0 →
      (update_price_data { company := "AAPL", date := 0, last_updated := 0 }
        { c := some 0, pc := some 50 }).daily_change = none ∧
      (update_price_data { company := "AAPL", date := 0, last_updated := 0 }
        { c := some 0, pc := some 50 }).daily_change_percent = none) ∧
    ({ company := "AAPL", date := 0, close_price := some 0,
        last_updated := 0 : Metrics }.close_price = some 0 →
      calculate_price_changes
        { company := "AAPL", date := 0, close_price := some 0, last_updated := 0 }
        ⟨"AAPL", "Apple Inc.", true⟩ [] 0
        = { company := "AAPL", date := 0, close_price := some 0, last_updated := 0 }) :=
  zero_close_treated_absent { company := "AAPL", date := 0, last_updated := 0 }
    { company := "AAPL", date := 0, close_price := some 0, last_updated := 0 }
    { c := some 0, pc := some 50 } ⟨"AAPL", "Apple Inc.", true⟩ [] 0

/-- With a successful quote and a failed financials fetch, the merge applies
the quote's price fields and leaves the valuation fields untouched. -/
theorem apply_results_fin_none (m : Metrics) (sec : Option String) (q : QuoteData) :
    (apply_results m sec (some q) none).close_price = q.c.or m.close_price ∧
    (apply_results m sec (some q) none).high_price = q.h.or m.high_price ∧
    (apply_results m sec (some q) none).low_price = q.l.or m.low_price ∧
    (apply_results m sec (some q) none).open_price = q.o.or m.open_price ∧
    (apply_results m sec (some q) none).market_cap = m.market_cap ∧
    (apply_results m sec (some q) none).pe_ratio = m.pe_ratio ∧
    (apply_results m sec (some q) none).price_to_book = m.price_to_book ∧
    (apply_results m sec (some q) none).dividend_yield = m.dividend_yield := by
  have hu8 : ∀ x : Metrics,
      (update_price_data x q).close_price = q.c.or x.close_price ∧
      (update_price_data x q).high_price = q.h.or x.high_price ∧
      (update_price_data x q).low_price = q.l.or x.low_price ∧
      (update_price_data x q).open_price = q.o.or x.open_price ∧
      (update_price_data x q).market_cap = x.market_cap ∧
      (update_price_data x q).pe_ratio = x.pe_ratio ∧
      (update_price_data x q).price_to_book = x.price_to_book ∧
      (update_price_data x q).dividend_yield = x.dividend_yield := by
    intro x
    have h := update_price_data_frame x q
    exact ⟨h.2.2.2.2.2.2.2.2.2.2.2.1, h.2.2.2.2.2.2.2.2.2.2.2.2.1,
      h.2.2.2.2.2.2.2.2.2.2.2.2.2.1, h.2.2.2.2.2.2.2.2.2.2.2.2.2.2,
      h.2.2.2.1, h.2.2.2.2.1, h.2.2.2.2.2.1, h.2.2.2.2.2.2.1⟩
  simp only [apply_results]
  split
  · split
    · exact hu8 _
    · exact hu8 m
  · exact hu8 m

theorem foldl_maxDate (t : List Metrics) (a : Metrics) :
    (t.foldl (fun acc x => if acc.date < x.date then x else acc) a = a ∨
      t.foldl (fun acc x => if acc.date < x.date then x else acc) a ∈ t) ∧
    a.date ≤ (t.foldl (fun acc x => if acc.date < x.date then x else acc) a).date ∧
    ∀ x ∈ t, x.date ≤ (t.foldl (fun acc x => if acc.date < x.date then x else acc) a).date := by
  induction t generalizing a with
  | nil => simp
  | cons b t ih =>
    simp only [List.foldl_cons]
    obtain ⟨h1, h2, h3⟩ := ih (if a.date < b.date then b else a)
    refine ⟨?_, ?_, ?_⟩
    · rcases h1 with h | h
      · rw [h]
        split_ifs with hab
        · exact Or.inr (List.mem_cons_self b t)
        · exact Or.inl rfl
      · exact Or.inr (List.mem_cons_of_mem b h)
    · refine le_trans ?_ h2
      split_ifs with hab
      · exact le_of_lt hab
      · exact le_refl _
    · intro x hx
      rcases List.mem_cons.mp hx with rfl | hx
      · refine le_trans ?_ h2
        split_ifs with hab
        · exact le_refl _
        · exact le_of_not_lt hab
      · exact h3 x hx

theorem firstByDateDesc_spec (l : List Metrics) (r : Metrics)
    (h : firstByDateDesc l = some r) :
    r ∈ l ∧ ∀ x ∈ l, x.date ≤ r.date := by
  cases l with
  | nil => cases h
  | cons a t =>
    simp only [firstByDateDesc, Option.some.injEq] at h
    obtain ⟨h1, h2, h3⟩ := foldl_maxDate t a
    subst h
    constructor
    · rcases h1 with h | h
      · rw [h]
        exact List.mem_cons_self a t
      · exact List.mem_cons_of_mem a h
    · intro x hx
      rcases List.mem_cons.mp hx with rfl | hx
      · exact h2
      · exact h3 x hx

/-- The lookback query returns the most recent prior row of the company at
or before the cutoff that has a non-null close. -/
theorem findPriorClose_spec (store : List Metrics) (sym : String) (cutoff : Int)
    (r : Metrics) (h : findPriorClose store sym cutoff = some r) :
    r ∈ store ∧ r.company = sym ∧ r.date ≤ cutoff ∧ r.close_price.isSome = true ∧
    ∀ x ∈ store, x.company = sym → x.date ≤ cutoff → x.close_price.isSome = true →
      x.date ≤ r.date := by
  obtain ⟨hmem, hmax⟩ := firstByDateDesc_spec _ r h
  have hr := List.mem_filter.mp hmem
  have hrp : r.company = sym ∧ r.date ≤ cutoff ∧ r.close_price.isSome = true := by
    have := hr.2
    simp only [Bool.and_eq_true, beq_iff_eq, decide_eq_true_eq] at this
    exact ⟨this.1.1, this.1.2, this.2⟩
  refine ⟨hr.1, hrp.1, hrp.2.1, hrp.2.2, ?_⟩
  intro x hx h1 h2 h3
  refine hmax x ?_
  rw [List.mem_filter]
  exact ⟨hx, by simp [h1, h2, h3]⟩

/-- C6 (amended): with a non-null, nonzero close today, the derived-metrics
step looks up the most recent prior record at or before today − 30 (365 for
yearly) having a non-null close, and when the found record's close is also
nonzero it sets both the change (`todayClose − thatClose`) and the
percentage (`change / thatClose * 100`); when today's close is absent the
whole computation is skipped and the record returned unchanged.  (As the
code stands, a found record whose close equals zero sets neither the change
nor the percentage — see the counterexample.) -/
theorem monthly_yearly_change (m : Metrics) (c : SP500Company) (store : List Metrics)
    (today : Int) :
    (m.close_price = none → calculate_price_changes m c store today = m) ∧
    (∀ (sym : String) (cutoff : Int) (r : Metrics),
      findPriorClose store sym cutoff = some r →
      r ∈ store ∧ r.company = sym ∧ r.date ≤ cutoff ∧ r.close_price.isSome = true ∧
      ∀ x ∈ store, x.company = sym → x.date ≤ cutoff → x.close_price.isSome = true →
        x.date ≤ r.date) ∧
    (∀ (cp mc : Rat) (r : Metrics), m.close_price = some cp → cp ≠ 0 →
      findPriorClose store c.symbol (today - 30) = some r → r.close_price = some mc →
      mc ≠ 0 →
      (calculate_price_changes m c store today).monthly_change = some (cp - mc) ∧
      (calculate_price_changes m c store today).monthly_change_percent
        = some ((cp - mc) / mc * 100)) ∧
    (∀ (cp yc : Rat) (r : Metrics), m.close_price = some cp → cp ≠ 0 →
      findPriorClose store c.symbol (today - 365) = some r → r.close_price = some yc →
      yc ≠ 0 →
      (calculate_price_changes m c store today).yearly_change = some (cp - yc) ∧
      (calculate_price_changes m c store today).yearly_change_percent
        = some ((cp - yc) / yc * 100)) := by
  refine ⟨?_, ?_, ?_, ?_⟩
  · intro h
    simp only [calculate_price_changes, h]
  · exact fun sym cutoff r h => findPriorClose_spec store sym cutoff r h
  · intro cp mc r hcp h0 hfind hrc hmc
    have hm : change_from_prior cp (findPriorClose store c.symbol (today - 30))
        = (some (cp - mc), some ((cp - mc) / mc * 100)) := by
      rw [hfind]
      simp only [change_from_prior, hrc]
      rw [if_pos hmc, if_pos hmc]
    constructor <;>
      · simp only [calculate_price_changes, hcp]
        rw [if_neg h0]
        simp only [hm]
        repeat' split
        all_goals rfl
  · intro cp yc r hcp h0 hfind hrc hyc
    have hy : change_from_prior cp (findPriorClose store c.symbol (today - 365))
        = (some (cp - yc), some ((cp - yc) / yc * 100)) := by
      rw [hfind]
      simp only [change_from_prior, hrc]
      rw [if_pos hyc, if_pos hyc]
    constructor <;>
      · simp only [calculate_price_changes, hcp]
        rw [if_neg h0]
        simp only [hy]

/-- Counterexample to C6 as stated: with a single prior record 40 days old
whose non-null close equals 0 and a close of 110 today, the lookback finds
that record (its close is non-null), yet the worker sets neither
`monthly_change` (the claim asserts `some (110 - 0)`) nor the percentage,
because the code additionally requires the found close to be truthy
(`if monthly_metrics and monthly_metrics.close_price:`). -/
theorem monthly_change_zero_close_cex :
    findPriorClose [{ company := "TST", date := 0, close_price := some 0, last_updated := 0 }]
      "TST" (40 - 30)
      = some { company := "TST", date := 0, close_price := some 0, last_updated := 0 } ∧
    (calculate_price_changes
      { company := "TST", date := 40, close_price := some 110, last_updated := 40 }
      ⟨"TST", "Test Co", true⟩
      [{ company := "TST", date := 0, close_price := some 0, last_updated := 0 }]
      40).monthly_change = none ∧
    (calculate_price_changes
      { company := "TST", date := 40, close_price := some 110, last_updated := 40 }
      ⟨"TST", "Test Co", true⟩
      [{ company := "TST", date := 0, close_price := some 0, last_updated := 0 }]
      40).monthly_change_percent = none := by
  refine ⟨?_, ?_, ?_⟩ <;>
    norm_num [findPriorClose, firstByDateDesc, calculate_price_changes, change_from_prior]

/-- Witness for `monthly_yearly_change`: a close of 100 stored 40 days ago
and 110 today gives `monthly_change = 10` and
`monthly_change_percent = 10`. -/
theorem monthly_yearly_change_witness :
    (calculate_price_changes
      { company := "TST", date := 40, close_price := some 110, last_updated := 40 }
      ⟨"TST", "Test Co", true⟩
      [{ company := "TST", date := 0, close_price := some 100, last_updated := 0 }]
      40).monthly_change = some 10 ∧
    (calculate_price_changes
      { company := "TST", date := 40, close_price := some 110, last_updated := 40 }
      ⟨"TST", "Test Co", true⟩
      [{ company := "TST", date := 0, close_price := some 100, last_updated := 0 }]
      40).monthly_change_percent = some 10 := by
  have h := (monthly_yearly_change
    { company := "TST", date := 40, close_price := some 110, last_updated := 40 }
    ⟨"TST", "Test Co", true⟩
    [{ company := "TST", date := 0, close_price := some 100, last_updated := 0 }]
    40).2.2.1 110 100
    { company := "TST", date := 0, close_price := some 100, last_updated := 0 }
    rfl (by norm_num) (by norm_num [findPriorClose, firstByDateDesc]) rfl (by norm_num)
  constructor
  · rw [h.1]
    norm_num
  · rw [h.2]
    norm_num

/-!  ### Interrupt control flow (sp500_worker.py lines 72–112,
collect_sp500_data.py lines 80–111)

What happens during one company's loop iteration: the iteration completes
(successfully or not), or a KeyboardInterrupt arrives while it runs. -/

inductive CompanyEvent where
  | done : Bool → CompanyEvent
  | interrupt : CompanyEvent
deriving Repr, DecidableEq

/-- The inner `for company in batch` loop of the worker's `handle` (and the
single company loop of the collect command): companies are attempted in
order; a KeyboardInterrupt during an iteration executes `break`, leaving the
loop, so later companies of the same loop are not attempted.  The returned
list holds the companies whose iteration was started. -/
def batchAttempt : List (String × CompanyEvent) → List String
  | [] => []
  | (s, CompanyEvent.interrupt) :: _ => [s]
  | (s, CompanyEvent.done _) :: rest => s :: batchAttempt rest

/-- `companies[i:i+batch_size]` slices of the worker's outer
`for i in range(0, total_companies, batch_size)` loop. -/
def toBatches (bs : Nat) : List α → List (List α)
  | [] => []
  | a :: l => (a :: l.take (bs - 1)) :: toBatches bs (l.drop (bs - 1))
termination_by l => l.length
decreasing_by simp [List.length_drop]; omega

/-- The worker run's attempted companies: the outer batch loop runs every
batch; inside each batch, `except KeyboardInterrupt: break` leaves only the
inner loop, so the outer loop continues with the next batch. -/
def workerProcessed (bs : Nat) (companies : List (String × CompanyEvent)) : List String :=
  ((toBatches bs companies).map batchAttempt).flatten

/-- The collect command's attempted companies: one flat loop, so `break` on
KeyboardInterrupt ends the whole run. -/
def collectProcessed (companies : List (String × CompanyEvent)) : List String :=
  batchAttempt companies

/-- C9 (code bug): with batch size 2 and an interrupt during the first
company, the worker still attempts the companies of the second batch — the
`break` leaves only the inner loop, the outer batch loop carries on — while
the collect command's flat loop stops at the interrupt as the claim and the
worker's own "Interrupted by user" message intend. -/
theorem worker_interrupt_continues :
    workerProcessed 2 [("AAA", CompanyEvent.interrupt), ("BBB", CompanyEvent.done true),
      ("CCC", CompanyEvent.done true), ("DDD", CompanyEvent.done true)]
      = ["AAA", "CCC", "DDD"] ∧
    collectProcessed [("AAA", CompanyEvent.interrupt), ("BBB", CompanyEvent.done true),
      ("CCC", CompanyEvent.done true), ("DDD", CompanyEvent.done true)] = ["AAA"] := by
  constructor
  · simp [workerProcessed, toBatches, batchAttempt]
  · rfl

/-!  ### The collect command's fetch-and-persist path
(collect_sp500_data.py, `Command.fetch_company_data`, lines 119–219)

Unlike the worker, this variant issues the quote and fundamentals requests
inside one `try` block (a failure of either returns `False` before any
database write), runs `get_or_create` with no surrounding transaction, never
computes a daily change (the quote's `pc` is assigned to
`company_metrics.previous_close`, which is not a `CompanyMetrics` field, so
it is silently dropped), copies each `metric` entry on mere key presence,
and fetches the four moving averages each inside its own `try`. -/

/-- The quote application of `fetch_company_data` (lines 153–163): copy
`c`/`h`/`l`/`o` when present; the `pc` branch writes only the non-field
attribute `previous_close`, so the persisted record is untouched by it and
no daily change is ever computed here. -/
def collect_apply_quote_fields (m : Metrics) (q : QuoteData) : Metrics :=
  let m := match q.c with
    | some v => { m with close_price := some v }
    | none => m
  let m := match q.h with
    | some v => { m with high_price := some v }
    | none => m
  let m := match q.l with
    | some v => { m with low_price := some v }
    | none => m
  match q.o with
  | some v => { m with open_price := some v }
  | none => m

/-- The `metric` application of `fetch_company_data` (lines 166–176): each
entry is copied on key presence alone (`if 'marketCapitalization' in
metric:` — no truthiness check, unlike the worker); market capitalization is
scaled with `int(value * 1000000)`. -/
def collect_update_metric_fields (m : Metrics) (f : Financials) : Metrics :=
  let m := match f.marketCapitalization with
    | some v => { m with market_cap := some (truncRat (v * 1000000)) }
    | none => m
  let m := match f.peBasicExclExtraTTM with
    | some v => { m with pe_ratio := some v }
    | none => m
  let m := match f.pbAnnual with
    | some v => { m with price_to_book := some v }
    | none => m
  match f.dividendYieldIndicatedAnnual with
  | some v => { m with dividend_yield := some v }
  | none => m

/-- Outcome of the four technical-indicator requests (lines 180–209), one
per period, each inside its own `try`: `none` when that period's request
failed, returned non-200 or had no non-empty `sma` series; `some v` when
the series' most recent value is `v`. -/
structure MAResults where
  p20 : Option Rat := none
  p50 : Option Rat := none
  p100 : Option Rat := none
  p200 : Option Rat := none
deriving Repr, DecidableEq

/-- The moving-average application of `fetch_company_data`: each period's
result is mapped to its own field; a failed period (`none`) leaves its field
alone and the loop continues with the next period. -/
def collect_apply_ma (m : Metrics) (ma : MAResults) : Metrics :=
  let m := match ma.p20 with
    | some v => { m with ma_20 := some v }
    | none => m
  let m := match ma.p50 with
    | some v => { m with ma_50 := some v }
    | none => m
  let m := match ma.p100 with
    | some v => { m with ma_100 := some v }
    | none => m
  match ma.p200 with
  | some v => { m with ma_200 := some v }
  | none => m

/-- `Command.fetch_company_data` (collect_sp500_data.py, lines 119–219): a
failed quote or fundamentals request raises inside the shared `try` and the
handlers return `False` before any database write; otherwise
`get_or_create` commits immediately (there is no `transaction.atomic` in
this command), the quote / metric / moving-average results are applied to
the in-memory row, and `save` persists it.  `fault = true` models an
uncaught exception after the `get_or_create` write (during field
conversion, the MA loop or its sleeps): the created row stays committed and
`save` never runs. -/
def fetch_company_data (store : List Metrics) (c : SP500Company)
    (quoteRes : Option QuoteData) (finRes : Option Financials) (ma : MAResults)
    (today : Int) (fault : Bool) : Bool × List Metrics :=
  match quoteRes with
  | none => (false, store)
  | some q =>
    match finRes with
    | none => (false, store)
    | some f =>
      let gc := get_or_create store c.symbol today
      if fault then (false, gc.2.2)
      else
        let m := collect_apply_ma (collect_update_metric_fields
          (collect_apply_quote_fields gc.1 q) f) ma
        (true, saveMetrics gc.2.2 m today)

theorem collect_apply_quote_fields_frame (m : Metrics) (q : QuoteData) :
    (collect_apply_quote_fields m q).company = m.company ∧
    (collect_apply_quote_fields m q).date = m.date ∧
    (collect_apply_quote_fields m q).daily_change = m.daily_change ∧
    (collect_apply_quote_fields m q).daily_change_percent = m.daily_change_percent ∧
    (collect_apply_quote_fields m q).market_cap = m.market_cap ∧
    (collect_apply_quote_fields m q).pe_ratio = m.pe_ratio ∧
    (collect_apply_quote_fields m q).price_to_book = m.price_to_book ∧
    (collect_apply_quote_fields m q).dividend_yield = m.dividend_yield ∧
    (collect_apply_quote_fields m q).ma_20 = m.ma_20 ∧
    (collect_apply_quote_fields m q).ma_50 = m.ma_50 ∧
    (collect_apply_quote_fields m q).ma_100 = m.ma_100 ∧
    (collect_apply_quote_fields m q).ma_200 = m.ma_200 ∧
    (collect_apply_quote_fields m q).close_price = q.c.or m.close_price ∧
    (collect_apply_quote_fields m q).high_price = q.h.or m.high_price ∧
    (collect_apply_quote_fields m q).low_price = q.l.or m.low_price ∧
    (collect_apply_quote_fields m q).open_price = q.o.or m.open_price := by
  simp only [collect_apply_quote_fields]
  repeat' split
  all_goals simp_all

theorem collect_update_metric_fields_frame (m : Metrics) (f : Financials) :
    (collect_update_metric_fields m f).company = m.company ∧
    (collect_update_metric_fields m f).date = m.date ∧
    (collect_update_metric_fields m f).close_price = m.close_price ∧
    (collect_update_metric_fields m f).high_price = m.high_price ∧
    (collect_update_metric_fields m f).low_price = m.low_price ∧
    (collect_update_metric_fields m f).open_price = m.open_price ∧
    (collect_update_metric_fields m f).daily_change = m.daily_change ∧
    (collect_update_metric_fields m f).daily_change_percent = m.daily_change_percent ∧
    (collect_update_metric_fields m f).ma_20 = m.ma_20 ∧
    (collect_update_metric_fields m f).ma_50 = m.ma_50 ∧
    (collect_update_metric_fields m f).ma_100 = m.ma_100 ∧
    (collect_update_metric_fields m f).ma_200 = m.ma_200 := by
  simp only [collect_update_metric_fields]
  repeat' split
  all_goals simp_all

theorem collect_apply_ma_frame (m : Metrics) (ma : MAResults) :
    (collect_apply_ma m ma).company = m.company ∧
    (collect_apply_ma m ma).date = m.date ∧
    (collect_apply_ma m ma).close_price = m.close_price ∧
    (collect_apply_ma m ma).high_price = m.high_price ∧
    (collect_apply_ma m ma).low_price = m.low_price ∧
    (collect_apply_ma m ma).open_price = m.open_price ∧
    (collect_apply_ma m ma).daily_change = m.daily_change ∧
    (collect_apply_ma m ma).daily_change_percent = m.daily_change_percent ∧
    (collect_apply_ma m ma).market_cap = m.market_cap ∧
    (collect_apply_ma m ma).pe_ratio = m.pe_ratio ∧
    (collect_apply_ma m ma).price_to_book = m.price_to_book ∧
    (collect_apply_ma m ma).dividend_yield = m.dividend_yield ∧
    (collect_apply_ma m ma).ma_20 = ma.p20.or m.ma_20 ∧
    (collect_apply_ma m ma).ma_50 = ma.p50.or m.ma_50 ∧
    (collect_apply_ma m ma).ma_100 = ma.p100.or m.ma_100 ∧
    (collect_apply_ma m ma).ma_200 = ma.p200.or m.ma_200 := by
  simp only [collect_apply_ma]
  repeat' split
  all_goals simp_all

/-- On a fresh `(company, today)` key, a fault-free collect update with both
requests succeeding commits and the key maps to the merged row. -/
theorem fetch_company_data_lookup (store : List Metrics) (c : SP500Company)
    (q : QuoteData) (f : Financials) (ma : MAResults) (today : Int)
    (h0 : lookupKey store c.symbol today = none) :
    (fetch_company_data store c (some q) (some f) ma today false).1 = true ∧
    lookupKey (fetch_company_data store c (some q) (some f) ma today false).2 c.symbol today
      = some { collect_apply_ma (collect_update_metric_fields (collect_apply_quote_fields
            { company := c.symbol, date := today, last_updated := today } q) f) ma with
          last_updated := today } := by
  simp only [fetch_company_data, get_or_create, h0, Bool.false_eq_true, if_false]
  have f1 := collect_apply_quote_fields_frame
    { company := c.symbol, date := today, last_updated := today } q
  have f2 := collect_update_metric_fields_frame
    (collect_apply_quote_fields { company := c.symbol, date := today, last_updated := today } q) f
  have f3 := collect_apply_ma_frame
    (collect_update_metric_fields
      (collect_apply_quote_fields { company := c.symbol, date := today, last_updated := today } q) f) ma
  have e1 : (collect_apply_ma (collect_update_metric_fields (collect_apply_quote_fields
      { company := c.symbol, date := today, last_updated := today } q) f) ma).company
      = c.symbol := by
    rw [f3.1, f2.1, f1.1]
  have e2 : (collect_apply_ma (collect_update_metric_fields (collect_apply_quote_fields
      { company := c.symbol, date := today, last_updated := today } q) f) ma).date
      = today := by
    rw [f3.2.1, f2.2.1, f1.2.1]
  have hsave := lookupKey_saveMetrics_self
    (store ++ [{ company := c.symbol, date := today, last_updated := today }])
    (collect_apply_ma (collect_update_metric_fields (collect_apply_quote_fields
      { company := c.symbol, date := today, last_updated := today } q) f) ma) today
  rw [e1, e2] at hsave
  refine ⟨by trivial, ?_⟩
  rw [hsave]
  have happ : lookupKey (store ++ [{ company := c.symbol, date := today, last_updated := today }])
      c.symbol today = some { company := c.symbol, date := today, last_updated := today } := by
    rw [lookupKey, List.find?_append]
    rw [lookupKey] at h0
    rw [h0]
    simp
  rw [happ, e1, e2]
  rfl

/-- C5 (amended): in the worker variant, on a successful quote fetch whose
response carries a previous close, with a (truthy) close price `cp` on the
record, `update_price_data` sets `daily_change = cp - previous_close`; when
the previous close is nonzero it also sets `daily_change_percent =
daily_change / previous_close * 100`, and when the previous close is zero
no division is performed and `daily_change_percent` is left exactly as it
was (unset on a fresh record) while `daily_change` is still computed.  The
collect variant computes no daily change at all: its quote application
copies only `c`/`h`/`l`/`o` (the `pc` value goes to `previous_close`, which
is not a persisted field) and leaves both daily fields untouched. -/
theorem daily_change_formula (m : Metrics) (q : QuoteData) (cp pc : Rat)
    (hcp : (apply_quote_fields m q).close_price = some cp) (h0 : cp ≠ 0)
    (hpc : q.pc = some pc) :
    (update_price_data m q).daily_change = some (cp - pc) ∧
    (pc ≠ 0 → (update_price_data m q).daily_change_percent
      = some ((cp - pc) / pc * 100)) ∧
    (pc = 0 → (update_price_data m q).daily_change_percent = m.daily_change_percent) ∧
    (collect_apply_quote_fields m q).daily_change = m.daily_change ∧
    (collect_apply_quote_fields m q).daily_change_percent = m.daily_change_percent := by
  have hframe := apply_quote_fields_frame m q
  have hcq := collect_apply_quote_fields_frame m q
  simp only [update_price_data, hpc, hcp]
  rw [if_pos h0]
  refine ⟨?_, ?_, ?_, hcq.2.2.1, hcq.2.2.2.1⟩
  · by_cases hp : pc ≠ 0
    · rw [if_pos hp]
    · rw [if_neg hp]
  · intro hp
    rw [if_pos hp]
  · intro hp
    rw [if_neg (by simp [hp])]
    simp only
    exact hframe.2.2.2.2.2.2.2.2.1

/-- Counterexample to C5 as stated: the claim's sources include
`collect_sp500_data.fetch_company_data` (lines 153–163), where a successful
quote fetch carrying previous close 50 and close 45 persists a record whose
`daily_change` and `daily_change_percent` are both unset — the
`dailyChange = close − previousClose` (= −5) the claim asserts is never
computed on that path (the previous close is assigned to a non-persisted
attribute). -/
theorem collect_no_daily_change_cex :
    ∃ r, lookupKey (fetch_company_data [] ⟨"AAPL", "Apple Inc.", true⟩
        (some { c := some 45, pc := some 50 }) (some {}) {} 0 false).2 "AAPL" 0 = some r ∧
      r.close_price = some 45 ∧ r.daily_change = none ∧ r.daily_change_percent = none := by
  have h := fetch_company_data_lookup [] ⟨"AAPL", "Apple Inc.", true⟩
    { c := some 45, pc := some 50 } {} {} 0 rfl
  exact ⟨_, h.2, rfl, rfl, rfl⟩

/-- Witness for `daily_change_formula`: previous close 50, current close 45
on a fresh record gives `daily_change = -5` and `daily_change_percent = -10`
in the worker, and leaves both daily fields unset in the collect variant's
quote application. -/
theorem daily_change_formula_witness :
    (update_price_data { company := "AAPL", date := 0, last_updated := 0 }
      { c := some 45, pc := some 50 }).daily_change = some (-5) ∧
    (update_price_data { company := "AAPL", date := 0, last_updated := 0 }
      { c := some 45, pc := some 50 }).daily_change_percent = some (-10) ∧
    (collect_apply_quote_fields { company := "AAPL", date := 0, last_updated := 0 }
      { c := some 45, pc := some 50 }).daily_change = none ∧
    (collect_apply_quote_fields { company := "AAPL", date := 0, last_updated := 0 }
      { c := some 45, pc := some 50 }).daily_change_percent = none := by
  have h := daily_change_formula { company := "AAPL", date := 0, last_updated := 0 }
    { c := some 45, pc := some 50 } 45 50
    (by simp [apply_quote_fields]) (by norm_num) rfl
  refine ⟨?_, ?_, ?_, ?_⟩
  · rw [h.1]
    norm_num
  · rw [h.2.1 (by norm_num)]
    norm_num
  · exact h.2.2.2.1
  · exact h.2.2.2.2

/-- Counterexample to C7 as stated: the claim's sources include
`collect_sp500_data.fetch_company_data`, where the quote and fundamentals
requests share one `try` block: a failed fundamentals fetch raises before
`get_or_create`, so with a successful quote nothing is persisted at all —
no record with price fields populated exists afterwards, against the
claim's quote-success/fundamentals-failure example. -/
theorem collect_quote_ok_fin_fail_cex :
    fetch_company_data [] ⟨"AAPL", "Apple Inc.", true⟩
      (some { c := some 190, pc := some 185 }) none {} 0 false = (false, []) ∧
    lookupKey (fetch_company_data [] ⟨"AAPL", "Apple Inc.", true⟩
      (some { c := some 190, pc := some 185 }) none {} 0 false).2 "AAPL" 0 = none :=
  ⟨rfl, rfl⟩

/-- C7 (amended): in the worker variant the sector, quote and financials
fetches are independently fallible and independently applied — for a
company with no row yet today, a successful quote with a failed financials
fetch (and any sector result) still commits a row whose price fields are
exactly the quote's and whose four valuation fields are null.  In the
collect variant the four moving-average fetches are each independently
fallible (each period's result is applied to its own field; a failed period
leaves its field null without blanking the other periods' fields, the price
fields, or aborting the update), but the quote and fundamentals fetches
share one `try` block, so a fundamentals failure aborts the company's
update before any record is created. -/
theorem independent_field_fetches (store : List Metrics) (c : SP500Company)
    (sectorRes : Option String) (q : QuoteData) (f : Financials) (ma : MAResults)
    (today : Int) (h0 : lookupKey store c.symbol today = none) :
    (fetch_and_save_metrics store c sectorRes (some q) none today none).1 = true ∧
    (∃ r, lookupKey (fetch_and_save_metrics store c sectorRes (some q) none today none).2
        c.symbol today = some r ∧
      r.close_price = q.c ∧ r.high_price = q.h ∧ r.low_price = q.l ∧ r.open_price = q.o ∧
      r.market_cap = none ∧ r.pe_ratio = none ∧ r.price_to_book = none ∧
      r.dividend_yield = none) ∧
    (fetch_company_data store c (some q) (some f) ma today false).1 = true ∧
    (∃ r, lookupKey (fetch_company_data store c (some q) (some f) ma today false).2
        c.symbol today = some r ∧
      r.ma_20 = ma.p20 ∧ r.ma_50 = ma.p50 ∧ r.ma_100 = ma.p100 ∧ r.ma_200 = ma.p200 ∧
      r.close_price = q.c ∧ r.high_price = q.h ∧ r.low_price = q.l ∧ r.open_price = q.o) ∧
    (∀ (st : List Metrics) (fault : Bool),
      fetch_company_data st c (some q) none ma today fault = (false, st)) := by
  have hlook := fetch_body_lookup_self store c sectorRes (some q) none today
  have hg1 : (get_or_create store c.symbol today).1
      = { company := c.symbol, date := today, last_updated := today } := by
    simp only [get_or_create, h0]
  have hg2 : (get_or_create store c.symbol today).2.2
      = store ++ [{ company := c.symbol, date := today, last_updated := today }] := by
    simp only [get_or_create, h0]
  rw [hg1, hg2] at hlook
  have hcf := calculate_price_changes_frame
    (apply_results { company := c.symbol, date := today, last_updated := today }
      sectorRes (some q) none) c
    (store ++ [{ company := c.symbol, date := today, last_updated := today }]) today
  have haf := apply_results_fin_none
    { company := c.symbol, date := today, last_updated := today } sectorRes q
  have hc := fetch_company_data_lookup store c q f ma today h0
  have g1 := collect_apply_quote_fields_frame
    { company := c.symbol, date := today, last_updated := today } q
  have g2 := collect_update_metric_fields_frame
    (collect_apply_quote_fields { company := c.symbol, date := today, last_updated := today } q) f
  have g3 := collect_apply_ma_frame
    (collect_update_metric_fields
      (collect_apply_quote_fields { company := c.symbol, date := today, last_updated := today } q) f) ma
  refine ⟨rfl, ?_, hc.1, ?_, fun st fault => rfl⟩
  · refine ⟨_, hlook, ?_, ?_, ?_, ?_, ?_, ?_, ?_, ?_⟩
    · show (calculate_price_changes
        (apply_results { company := c.symbol, date := today, last_updated := today }
          sectorRes (some q) none) c
        (store ++ [{ company := c.symbol, date := today, last_updated := today }])
        today).close_price = q.c
      rw [hcf.2.2.2.1, haf.1]
      cases q.c <;> rfl
    · show (calculate_price_changes
        (apply_results { company := c.symbol, date := today, last_updated := today }
          sectorRes (some q) none) c
        (store ++ [{ company := c.symbol, date := today, last_updated := today }])
        today).high_price = q.h
      rw [hcf.2.2.2.2.1, haf.2.1]
      cases q.h <;> rfl
    · show (calculate_price_changes
        (apply_results { company := c.symbol, date := today, last_updated := today }
          sectorRes (some q) none) c
        (store ++ [{ company := c.symbol, date := today, last_updated := today }])
        today).low_price = q.l
      rw [hcf.2.2.2.2.2.1, haf.2.2.1]
      cases q.l <;> rfl
    · show (calculate_price_changes
        (apply_results { company := c.symbol, date := today, last_updated := today }
          sectorRes (some q) none) c
        (store ++ [{ company := c.symbol, date := today, last_updated := today }])
        today).open_price = q.o
      rw [hcf.2.2.2.2.2.2.1, haf.2.2.2.1]
      cases q.o <;> rfl
    · show (calculate_price_changes
        (apply_results { company := c.symbol, date := today, last_updated := today }
          sectorRes (some q) none) c
        (store ++ [{ company := c.symbol, date := today, last_updated := today }])
        today).market_cap = none
      rw [hcf.2.2.2.2.2.2.2.2.2.1, haf.2.2.2.2.1]
    · show (calculate_price_changes
        (apply_results { company := c.symbol, date := today, last_updated := today }
          sectorRes (some q) none) c
        (store ++ [{ company := c.symbol, date := today, last_updated := today }])
        today).pe_ratio = none
      rw [hcf.2.2.2.2.2.2.2.2.2.2.1, haf.2.2.2.2.2.1]
    · show (calculate_price_changes
        (apply_results { company := c.symbol, date := today, last_updated := today }
          sectorRes (some q) none) c
        (store ++ [{ company := c.symbol, date := today, last_updated := today }])
        today).price_to_book = none
      rw [hcf.2.2.2.2.2.2.2.2.2.2.2.1, haf.2.2.2.2.2.2.1]
    · show (calculate_price_changes
        (apply_results { company := c.symbol, date := today, last_updated := today }
          sectorRes (some q) none) c
        (store ++ [{ company := c.symbol, date := today, last_updated := today }])
        today).dividend_yield = none
      rw [hcf.2.2.2.2.2.2.2.2.2.2.2.2, haf.2.2.2.2.2.2.2]
  · refine ⟨_, hc.2, ?_, ?_, ?_, ?_, ?_, ?_, ?_, ?_⟩
    · show (collect_apply_ma (collect_update_metric_fields (collect_apply_quote_fields
          { company := c.symbol, date := today, last_updated := today } q) f) ma).ma_20
        = ma.p20
      rw [g3.2.2.2.2.2.2.2.2.2.2.2.2.1, g2.2.2.2.2.2.2.2.2.1, g1.2.2.2.2.2.2.2.2.1]
      cases ma.p20 <;> rfl
    · show (collect_apply_ma (collect_update_metric_fields (collect_apply_quote_fields
          { company := c.symbol, date := today, last_updated := today } q) f) ma).ma_50
        = ma.p50
      rw [g3.2.2.2.2.2.2.2.2.2.2.2.2.2.1, g2.2.2.2.2.2.2.2.2.2.1, g1.2.2.2.2.2.2.2.2.2.1]
      cases ma.p50 <;> rfl
    · show (collect_apply_ma (collect_update_metric_fields (collect_apply_quote_fields
          { company := c.symbol, date := today, last_updated := today } q) f) ma).ma_100
        = ma.p100
      rw [g3.2.2.2.2.2.2.2.2.2.2.2.2.2.2.1, g2.2.2.2.2.2.2.2.2.2.2.1, g1.2.2.2.2.2.2.2.2.2.2.1]
      cases ma.p100 <;> rfl
    · show (collect_apply_ma (collect_update_metric_fields (collect_apply_quote_fields
          { company := c.symbol, date := today, last_updated := today } q) f) ma).ma_200
        = ma.p200
      rw [g3.2.2.2.2.2.2.2.2.2.2.2.2.2.2.2, g2.2.2.2.2.2.2.2.2.2.2.2, g1.2.2.2.2.2.2.2.2.2.2.2.1]
      cases ma.p200 <;> rfl
    · show (collect_apply_ma (collect_update_metric_fields (collect_apply_quote_fields
          { company := c.symbol, date := today, last_updated := today } q) f) ma).close_price
        = q.c
      rw [g3.2.2.1, g2.2.2.1, g1.2.2.2.2.2.2.2.2.2.2.2.2.1]
      cases q.c <;> rfl
    · show (collect_apply_ma (collect_update_metric_fields (collect_apply_quote_fields
          { company := c.symbol, date := today, last_updated := today } q) f) ma).high_price
        = q.h
      rw [g3.2.2.2.1, g2.2.2.2.1, g1.2.2.2.2.2.2.2.2.2.2.2.2.2.1]
      cases q.h <;> rfl
    · show (collect_apply_ma (collect_update_metric_fields (collect_apply_quote_fields
          { company := c.symbol, date := today, last_updated := today } q) f) ma).low_price
        = q.l
      rw [g3.2.2.2.2.1, g2.2.2.2.2.1, g1.2.2.2.2.2.2.2.2.2.2.2.2.2.2.1]
      cases q.l <;> rfl
    · show (collect_apply_ma (collect_update_metric_fields (collect_apply_quote_fields
          { company := c.symbol, date := today, last_updated := today } q) f) ma).open_price
        = q.o
      rw [g3.2.2.2.2.2.1, g2.2.2.2.2.2.1, g1.2.2.2.2.2.2.2.2.2.2.2.2.2.2.2]
      cases q.o <;> rfl

/-- Witness for `independent_field_fetches`: empty store; worker — quote
`{c: 190, pc: 185}` succeeds, financials fail, the committed row has the
price populated and valuations null; collect — both requests succeed, the
20- and 100-day moving averages succeed while the 50- and 200-day ones
fail, and the committed row carries exactly the successful periods with the
failed ones null and the price fields intact; a fundamentals failure
returns `False` with the store untouched. -/
theorem independent_field_fetches_witness :
    (fetch_and_save_metrics [] ⟨"AAPL", "Apple Inc.", true⟩ none
      (some { c := some 190, pc := some 185 }) none 0 none).1 = true ∧
    (∃ r, lookupKey (fetch_and_save_metrics [] ⟨"AAPL", "Apple Inc.", true⟩ none
        (some { c := some 190, pc := some 185 }) none 0 none).2 "AAPL" 0 = some r ∧
      r.close_price = some 190 ∧ r.high_price = none ∧ r.low_price = none ∧
      r.open_price = none ∧ r.market_cap = none ∧ r.pe_ratio = none ∧
      r.price_to_book = none ∧ r.dividend_yield = none) ∧
    (fetch_company_data [] ⟨"AAPL", "Apple Inc.", true⟩
      (some { c := some 190, pc := some 185 }) (some {})
      { p20 := some 100, p100 := some 50 } 0 false).1 = true ∧
    (∃ r, lookupKey (fetch_company_data [] ⟨"AAPL", "Apple Inc.", true⟩
        (some { c := some 190, pc := some 185 }) (some {})
        { p20 := some 100, p100 := some 50 } 0 false).2 "AAPL" 0 = some r ∧
      r.ma_20 = some 100 ∧ r.ma_50 = none ∧ r.ma_100 = some 50 ∧ r.ma_200 = none ∧
      r.close_price = some 190 ∧ r.high_price = none ∧ r.low_price = none ∧
      r.open_price = none) ∧
    (∀ (st : List Metrics) (fault : Bool),
      fetch_company_data st ⟨"AAPL", "Apple Inc.", true⟩
        (some { c := some 190, pc := some 185 }) none
        { p20 := some 100, p100 := some 50 } 0 fault = (false, st)) :=
  independent_field_fetches [] ⟨"AAPL", "Apple Inc.", true⟩ none
    { c := some 190, pc := some 185 } {} { p20 := some 100, p100 := some 50 } 0 rfl

/-- Counterexample to C8 as stated: the claim's sources include
`collect_sp500_data.fetch_company_data`, which has no `transaction.atomic`.
Starting from an empty store with both requests succeeding, an uncaught
exception after `get_or_create` makes the update fail — yet the store is no
longer unchanged for that company: the created row was committed on its own
and survives, so the key now counts one row where it counted none. -/
theorem collect_non_atomic_cex :
    (fetch_company_data [] ⟨"AAPL", "Apple Inc.", true⟩ (some {}) (some {}) {} 0 true).1
      = false ∧
    countKey (fetch_company_data [] ⟨"AAPL", "Apple Inc.", true⟩
      (some {}) (some {}) {} 0 true).2 "AAPL" 0 = 1 ∧
    countKey ([] : List Metrics) "AAPL" 0 = 0 := by
  refine ⟨rfl, ?_, rfl⟩
  simp [fetch_company_data, get_or_create, lookupKey, countKey]

/-- C8 (amended): in the worker variant each company's fetch-derive-persist
sequence is one atomic transaction: an exception at any point of the block
leaves the store exactly as it was and the method reports failure; a
committed update touches only that company's `(company, today)` key; and
companies commit independently — a faulting company contributes nothing to
the run while the surrounding companies' commits are unaffected.  In the
collect variant there is no transaction: the `get_or_create` write commits
on its own, so an exception afterwards leaves that committed row behind
with `save` never run — on a fresh key the failed update leaves exactly the
bare created row for the pair. -/
theorem per_company_atomicity (store : List Metrics) (c : SP500Company)
    (sectorRes : Option String) (quoteRes : Option QuoteData) (finRes : Option Financials)
    (q : QuoteData) (f : Financials) (ma : MAResults) (today : Int) :
    (∀ fp : FaultPoint,
      fetch_and_save_metrics store c sectorRes quoteRes finRes today (some fp)
        = (false, store)) ∧
    (fetch_and_save_metrics store c sectorRes quoteRes finRes today none).1 = true ∧
    (∀ sym d, ¬(sym = c.symbol ∧ d = today) →
      filterKey (fetch_and_save_metrics store c sectorRes quoteRes finRes today none).2 sym d
        = filterKey store sym d) ∧
    (∀ (env : FetchEnv) (l1 l2 : List SP500Company) (cf : SP500Company) (fp : FaultPoint),
      env.faultOf cf = some fp →
      runCompanies env today store (l1 ++ cf :: l2)
        = runCompanies env today store (l1 ++ l2)) ∧
    (∀ st : List Metrics, fetch_company_data st c (some q) (some f) ma today true
      = (false, (get_or_create st c.symbol today).2.2)) ∧
    (lookupKey store c.symbol today = none →
      lookupKey (fetch_company_data store c (some q) (some f) ma today true).2 c.symbol today
        = some { company := c.symbol, date := today, last_updated := today }) := by
  refine ⟨fun fp => rfl, rfl, ?_, ?_, fun st => rfl, ?_⟩
  · intro sym d h
    exact fetch_body_filterKey store c sectorRes quoteRes finRes today sym d h
  · intro env l1 l2 cf fp hfp
    unfold runCompanies
    rw [List.foldl_append, List.foldl_append, List.foldl_cons]
    have hid : processCompany env today (List.foldl (processCompany env today) store l1) cf
        = List.foldl (processCompany env today) store l1 := by
      unfold processCompany fetch_and_save_metrics
      rw [hfp]
    rw [hid]
  · intro h0
    have h5 : fetch_company_data store c (some q) (some f) ma today true
        = (false, (get_or_create store c.symbol today).2.2) := rfl
    rw [h5]
    simp only [get_or_create, h0]
    rw [lookupKey, List.find?_append]
    rw [lookupKey] at h0
    rw [h0]
    simp

/-- Witness for `per_company_atomicity`: a one-row store for another
company; in the worker a fault leaves it untouched, a commit leaves the
other key untouched, and a faulting company drops out of the run; in the
collect variant a post-`get_or_create` fault leaves the freshly created
bare row for the pair committed. -/
theorem per_company_atomicity_witness :
    (∀ fp : FaultPoint,
      fetch_and_save_metrics [{ company := "MSFT", date := 0, last_updated := 0 }]
        ⟨"AAPL", "Apple Inc.", true⟩ none none none 0 (some fp)
        = (false, [{ company := "MSFT", date := 0, last_updated := 0 }])) ∧
    (fetch_and_save_metrics [{ company := "MSFT", date := 0, last_updated := 0 }]
      ⟨"AAPL", "Apple Inc.", true⟩ none none none 0 none).1 = true ∧
    (∀ sym d, ¬(sym = "AAPL" ∧ d = 0) →
      filterKey (fetch_and_save_metrics [{ company := "MSFT", date := 0, last_updated := 0 }]
        ⟨"AAPL", "Apple Inc.", true⟩ none none none 0 none).2 sym d
        = filterKey [{ company := "MSFT", date := 0, last_updated := 0 }] sym d) ∧
    (∀ (env : FetchEnv) (l1 l2 : List SP500Company) (cf : SP500Company) (fp : FaultPoint),
      env.faultOf cf = some fp →
      runCompanies env 0 [{ company := "MSFT", date := 0, last_updated := 0 }] (l1 ++ cf :: l2)
        = runCompanies env 0 [{ company := "MSFT", date := 0, last_updated := 0 }] (l1 ++ l2)) ∧
    (∀ st : List Metrics, fetch_company_data st ⟨"AAPL", "Apple Inc.", true⟩
      (some {}) (some {}) {} 0 true
      = (false, (get_or_create st "AAPL" 0).2.2)) ∧
    (lookupKey [{ company := "MSFT", date := 0, last_updated := 0 }] "AAPL" 0 = none →
      lookupKey (fetch_company_data [{ company := "MSFT", date := 0, last_updated := 0 }]
        ⟨"AAPL", "Apple Inc.", true⟩ (some {}) (some {}) {} 0 true).2 "AAPL" 0
        = some { company := "AAPL", date := 0, last_updated := 0 }) :=
  per_company_atomicity [{ company := "MSFT", date := 0, last_updated := 0 }]
    ⟨"AAPL", "Apple Inc.", true⟩ none none none {} {} {} 0
